import Mathlib

/-!
Verification development for the Muelsyse-CI control plane
(`control-plane/Python-src`).  The Python source is shallowly embedded:
pure functions become Lean functions, Python dictionaries become
association lists or structures, fallible code returns `Except`, and
bounded recursion is made total with an explicit fuel argument that is
always instantiated large enough to be irrelevant (every recursive call
consumes at least one unit of the measure the fuel over-approximates).
-/

namespace MuelsyseCI

/-! ## String helpers

Python string primitives used by the source, modelled over `String.data`
(`List Char`) so that everything reduces in the kernel. -/

/-- Python `s.startswith(pre)`. -/
def strStartsWith (s pre : String) : Bool :=
  pre.data.isPrefixOf s.data

/-- Python slicing `s[n:]`. -/
def strDropN (s : String) (n : Nat) : String :=
  String.mk (s.data.drop n)

/-! ## Ref/branch/tag pattern matcher
(`apps/pipelines/matcher.py`, `PipelineMatcher._matches_pattern`)

The source builds a regex from the pattern with
`re.escape`, then textual replacement of the escaped wildcards:
`\*\*` to `.*`, then `\*` to `[^/]*`, then `\?` to `.`, anchored with
`^...$`, and runs `re.match` against the value.  After `re.escape` every
character of the pattern other than the wildcard sequences is a regex
literal, so the regex is exactly a token string over four token kinds,
with the replacements pairing consecutive stars left to right.  Python
regex semantics kept by the model: `.` and `.*` do not match a newline,
the negated class `[^/]*` does match a newline, and the `$` anchor also
matches just before a single trailing newline. -/

inductive GTok where
  | lit (c : Char)
  | star
  | dstar
  | q

/-- Tokenize a ref pattern; consecutive `*` pair into `**` left to right,
exactly as the non-overlapping `str.replace` pipeline does. -/
def gTokenize : List Char → List GTok
  | [] => []
  | '*' :: '*' :: rest => .dstar :: gTokenize rest
  | '*' :: rest => .star :: gTokenize rest
  | '?' :: rest => .q :: gTokenize rest
  | c :: rest => .lit c :: gTokenize rest

/-- Backtracking matcher for the tokenized ref regex.  The fuel
over-approximates `tokens.length + chars.length`, which strictly
decreases at every recursive call, so it never runs out when
instantiated by `gMatch`. -/
def gMatchF : Nat → List GTok → List Char → Bool
  | 0, _, _ => false
  | _ + 1, [], rest => rest.isEmpty || rest == ['\n']
  | f + 1, .lit c :: ts, d :: rest => c == d && gMatchF f ts rest
  | _ + 1, .lit _ :: _, [] => false
  | f + 1, .q :: ts, d :: rest => d != '\n' && gMatchF f ts rest
  | _ + 1, .q :: _, [] => false
  | f + 1, .star :: ts, s =>
      gMatchF f ts s ||
        (match s with
         | c :: s' => c != '/' && gMatchF f (.star :: ts) s'
         | [] => false)
  | f + 1, .dstar :: ts, s =>
      gMatchF f ts s ||
        (match s with
         | c :: s' => c != '\n' && gMatchF f (.dstar :: ts) s'
         | [] => false)

def gMatch (ts : List GTok) (s : List Char) : Bool :=
  gMatchF (ts.length + s.length + 1) ts s

/-- `PipelineMatcher._matches_pattern`: exact equality short-circuits,
otherwise the translated anchored regex is run on the value.  The
`except re.error` branch of the source is unreachable because every
metacharacter was escaped before the replacements. -/
def matchesPattern (value pattern : String) : Bool :=
  value == pattern || gMatch (gTokenize pattern.data) value.data

/-- `PipelineMatcher._matches_pattern_list`. -/
def matchesPatternList (value : String) (patterns : List String) : Bool :=
  patterns.any (fun p => matchesPattern value p)

/-! ## fnmatch (Python standard library)

`PipelineMatcher._matches_path_pattern` first calls
`fnmatch.fnmatch(path, pattern)`.  On a POSIX platform `normcase` is the
identity, so this is `fnmatch.translate` semantics: `*` matches any run
of characters including `/` (the translated regex uses the dot-all
flag), `?` matches any single character, `[seq]`/`[!seq]` are character
classes with ranges, an unterminated `[` is a literal, and the regex is
terminated with `\Z` (exact end of string). -/

inductive FTok where
  | lit (c : Char)
  | any
  | star
  | cls (neg : Bool) (items : List (Char × Char))

/-- Character-class items: `a-b` ranges, a trailing or leading `-` is a
literal; a single char `c` becomes the degenerate range `(c, c)`.
An inverted range (`z-a`) matches nothing in the model, where CPython
would raise `re.error`; no pattern in the repository produces one. -/
def classItems : List Char → List (Char × Char)
  | [] => []
  | a :: '-' :: b :: rest => (a, b) :: classItems rest
  | a :: rest => (a, a) :: classItems rest

/-- Scan the body of a class up to the closing `]`; `none` when there is
no closing bracket. -/
def fScanClassAux : List Char → Option (List Char × List Char)
  | [] => none
  | ']' :: rest => some ([], rest)
  | c :: rest => (fScanClassAux rest).map (fun p => (c :: p.1, p.2))

/-- Scan a class body where a `]` in the first position is content. -/
def fScanClass : List Char → Option (List Char × List Char)
  | ']' :: rest => (fScanClassAux rest).map (fun p => (']' :: p.1, p.2))
  | cs => fScanClassAux cs

/-- Tokenizer for `fnmatch.translate`.  Fuel over-approximates the input
length; every recursive call consumes at least one character. -/
def fTokenizeF : Nat → List Char → List FTok
  | 0, _ => []
  | _ + 1, [] => []
  | f + 1, '*' :: rest => .star :: fTokenizeF f rest
  | f + 1, '?' :: rest => .any :: fTokenizeF f rest
  | f + 1, '[' :: rest =>
      let p := match rest with
        | '!' :: r => (true, r)
        | _ => (false, rest)
      match fScanClass p.2 with
      | some (content, rest') => .cls p.1 (classItems content) :: fTokenizeF f rest'
      | none => .lit '[' :: fTokenizeF f rest
  | f + 1, c :: rest => .lit c :: fTokenizeF f rest

def fTokenize (cs : List Char) : List FTok :=
  fTokenizeF (cs.length + 1) cs

def clsMatch (neg : Bool) (items : List (Char × Char)) (c : Char) : Bool :=
  let inside := items.any (fun p => p.1 ≤ c && c ≤ p.2)
  if neg then !inside else inside

/-- Backtracking matcher for fnmatch tokens: dot-all `*` and `?`, exact
end of input (`\Z`). -/
def fMatchF : Nat → List FTok → List Char → Bool
  | 0, _, _ => false
  | _ + 1, [], rest => rest.isEmpty
  | f + 1, .lit c :: ts, d :: rest => c == d && fMatchF f ts rest
  | _ + 1, .lit _ :: _, [] => false
  | f + 1, .any :: ts, _ :: rest => fMatchF f ts rest
  | _ + 1, .any :: _, [] => false
  | f + 1, .cls neg items :: ts, d :: rest => clsMatch neg items d && fMatchF f ts rest
  | _ + 1, .cls _ _ :: _, [] => false
  | f + 1, .star :: ts, s =>
      fMatchF f ts s ||
        (match s with
         | _ :: s' => fMatchF f (.star :: ts) s'
         | [] => false)

/-- Python `fnmatch.fnmatch(path, pattern)` (POSIX case-sensitive). -/
def fnmatchB (path pattern : String) : Bool :=
  let ts := fTokenize pattern.data
  fMatchF (ts.length + path.data.length + 1) ts path.data

/-! ## Path pattern matcher
(`apps/pipelines/matcher.py`, `PipelineMatcher._matches_path_pattern`)

When `fnmatch` fails and the pattern contains `**`, the source builds a
regex by plain textual replacement on the raw pattern:
`.` to `\.`, then `**` to `.*`, then `*` to `[^/]*` — the third
replacement also rewrites the `*` of every `.*` the second one just
inserted, so `**` actually becomes `.[^/]*`.  The result is anchored and
run with `re.match`; `re.error` is swallowed and the function returns
false.  The model reproduces the replacement pipeline literally and
interprets the produced regex with a small engine covering the
constructs the pipeline emits (escaped literals, `.`, character
classes, the `*`/`?`/`+` quantifiers with their lazy variants).
Grouping, alternation and mid-pattern anchors are treated as errors
(match nothing): path filter patterns never contain them, and an
unbalanced occurrence is a `re.error` in CPython as well. -/

/-- Python `s.replace(old, new)`: left-to-right, non-overlapping.  Fuel
over-approximates the input length (`old` is never empty here). -/
def replaceSubF : Nat → List Char → List Char → List Char → List Char
  | 0, s, _, _ => s
  | _ + 1, [], _, _ => []
  | f + 1, c :: rest, tgt, repl =>
      if tgt.isPrefixOf (c :: rest) then
        repl ++ replaceSubF f ((c :: rest).drop tgt.length) tgt repl
      else
        c :: replaceSubF f rest tgt repl

def replaceSub (s tgt repl : List Char) : List Char :=
  replaceSubF (s.length + 1) s tgt repl

/-- The replacement pipeline of `_matches_path_pattern` (lines 261-263). -/
def pathRegexChars (pattern : List Char) : List Char :=
  let s1 := replaceSub pattern ['.'] ['\\', '.']
  let s2 := replaceSub s1 ['*', '*'] ['.', '*']
  replaceSub s2 ['*'] ['[', '^', '/', ']', '*']

inductive RBase where
  | lit (c : Char)
  | dot
  | cls (neg : Bool) (items : List (Char × Char))

inductive RQuant where
  | one
  | star
  | opt
  | plus

/-- Scan a regex character-class body up to the closing `]`, resolving
backslash escapes; `none` (a `re.error`) when unterminated. -/
def rScanClsBody : List Char → Option (List Char × List Char)
  | [] => none
  | '\\' :: e :: rest => (rScanClsBody rest).map (fun p => (e :: p.1, p.2))
  | '\\' :: [] => none
  | ']' :: rest => some ([], rest)
  | c :: rest => (rScanClsBody rest).map (fun p => (c :: p.1, p.2))

/-- Parse a regex character class after the opening `[`: optional `^`
negation, a `]` in first content position is literal. -/
def rScanCls (cs : List Char) : Option (Bool × List (Char × Char) × List Char) :=
  let p : Bool × List Char := match cs with
    | '^' :: r => (true, r)
    | _ => (false, cs)
  let scan : Option (List Char × List Char) := match p.2 with
    | ']' :: r => (rScanClsBody r).map (fun q => (']' :: q.1, q.2))
    | r => rScanClsBody r
  scan.map (fun q => (p.1, classItems q.1, q.2))

/-- Parse one regex atom; `none` models a `re.error` (a quantifier with
nothing to repeat, or an unsupported grouping/anchor construct). -/
def rAtom : List Char → Option (RBase × List Char)
  | [] => none
  | '\\' :: [] => none
  | '\\' :: e :: rest => some (.lit e, rest)
  | '.' :: rest => some (RBase.dot, rest)
  | '[' :: rest =>
      match rScanCls rest with
      | none => none
      | some (neg, items, rest') => some (.cls neg items, rest')
  | '*' :: _ => none
  | '?' :: _ => none
  | '+' :: _ => none
  | '(' :: _ => none
  | ')' :: _ => none
  | '|' :: _ => none
  | '^' :: _ => none
  | '$' :: _ => none
  | c :: rest => some (.lit c, rest)

/-- Split a quantifier (greedy or lazy; laziness does not change the
matched language) after an atom. -/
def quantSplit : List Char → RQuant × List Char
  | '*' :: '?' :: rest => (.star, rest)
  | '*' :: rest => (.star, rest)
  | '?' :: '?' :: rest => (.opt, rest)
  | '?' :: rest => (.opt, rest)
  | '+' :: '?' :: rest => (.plus, rest)
  | '+' :: rest => (.plus, rest)
  | rest => (.one, rest)

/-- Parse the regex emitted by `pathRegexChars` into a quantified-atom
list; `none` models `re.error`.  Fuel over-approximates the length. -/
def rParseF : Nat → List Char → Option (List (RBase × RQuant))
  | 0, _ => none
  | _ + 1, [] => some []
  | f + 1, cs =>
      match rAtom cs with
      | none => none
      | some (b, rest) =>
          let q := quantSplit rest
          (rParseF f q.2).map (fun l => (b, q.1) :: l)

def rParse (cs : List Char) : Option (List (RBase × RQuant)) :=
  rParseF (cs.length + 1) cs

/-- One-character base match: `.` excludes the newline, classes include
it unless excluded. -/
def rBaseMatch : RBase → Char → Bool
  | .lit c, d => c == d
  | .dot, d => d != '\n'
  | .cls neg items, d => clsMatch neg items d

/-- Backtracking matcher for the parsed regex, with the `^...$`
anchoring of the source: `$` also matches before one trailing
newline character. -/
def rMatchF : Nat → List (RBase × RQuant) → List Char → Bool
  | 0, _, _ => false
  | _ + 1, [], rest => rest.isEmpty || rest == ['\n']
  | f + 1, (b, .one) :: ts, s =>
      match s with
      | c :: rest => rBaseMatch b c && rMatchF f ts rest
      | [] => false
  | f + 1, (b, .opt) :: ts, s =>
      (match s with
       | c :: rest => rBaseMatch b c && rMatchF f ts rest
       | [] => false) ||
      rMatchF f ts s
  | f + 1, (b, .star) :: ts, s =>
      rMatchF f ts s ||
        (match s with
         | c :: rest => rBaseMatch b c && rMatchF f ((b, RQuant.star) :: ts) rest
         | [] => false)
  | f + 1, (b, .plus) :: ts, s =>
      match s with
      | c :: rest => rBaseMatch b c && rMatchF f ((b, RQuant.star) :: ts) rest
      | [] => false

/-- The `'**' in pattern` regex branch of `_matches_path_pattern`. -/
def regexBranchMatch (path pattern : String) : Bool :=
  match rParse (pathRegexChars pattern.data) with
  | none => false
  | some atoms => rMatchF (atoms.length + path.data.length + 1) atoms path.data

/-- Python substring containment `tgt in s`. -/
def containsSub : List Char → List Char → Bool
  | s, tgt =>
    tgt.isPrefixOf s ||
      (match s with
       | [] => false
       | _ :: rest => containsSub rest tgt)

/-- `PipelineMatcher._matches_path_pattern`: `fnmatch` first, then the
regex branch when the pattern contains `**`, otherwise false. -/
def matchesPathPattern (path pattern : String) : Bool :=
  fnmatchB path pattern ||
    (if containsSub pattern.data ['*', '*'] then regexBranchMatch path pattern
     else false)

/-- `PipelineMatcher._matches_path_pattern_list`. -/
def matchesPathPatternList (path : String) (patterns : List String) : Bool :=
  patterns.any (fun p => matchesPathPattern path p)

/-! ## Push events (`apps/webhooks/parsers.py`, `PushEvent`)

Only the fields the trigger matcher and the webhook execution-creation
path consume are carried.  `changed_files` is the derived field of the
source (the union of `added`, `removed` and `modified` over all
commits); the matcher only ever applies `all`/`any` over it, so the
set-iteration order of the source is irrelevant. -/

structure PushEvent where
  ref : String
  deleted : Bool := false
  changed_files : List String := []

/-- `PushEvent.is_tag`. -/
def PushEvent.is_tag (e : PushEvent) : Bool :=
  strStartsWith e.ref "refs/tags/"

/-- `PushEvent.tag`: the ref with `refs/tags/` stripped, `none` for a
non-tag ref. -/
def PushEvent.tagName (e : PushEvent) : Option String :=
  if strStartsWith e.ref "refs/tags/" then some (strDropN e.ref 10) else none

/-- `PushEvent.branch`: the ref with `refs/heads/` stripped, otherwise
the ref itself. -/
def PushEvent.branch (e : PushEvent) : String :=
  if strStartsWith e.ref "refs/heads/" then strDropN e.ref 11 else e.ref

/-! ## Trigger configuration

A parsed `on.push` value is a Python dict read with
`config.get(key, [])`; the matcher distinguishes the empty dict and the
literal `True` from a populated dict, so the embedding keeps the three
shapes apart.  A dict that has keys but in which every filter list is
empty is `filters` with all fields `[]` (it is *not* the empty dict). -/

structure PushFilters where
  branches : List String := []
  branches_ignore : List String := []
  paths : List String := []
  paths_ignore : List String := []
  tags : List String := []
  tags_ignore : List String := []

inductive PushConfigVal where
  | trueVal
  | emptyDict
  | filters (c : PushFilters)

/-- The `on` triggers of a parsed configuration, restricted to what
`matches_push` reads: `triggers.get('push')`. -/
structure TriggerCfg where
  push : Option PushConfigVal

/-- `PipelineMatcher._matches_tag_push`. -/
def matchesTagPush (e : PushEvent) (c : PushFilters) : Bool :=
  match e.tagName with
  | none => false
  | some tag =>
    if tag == "" then false
    else if !c.tags_ignore.isEmpty && matchesPatternList tag c.tags_ignore then false
    else if !c.tags.isEmpty && !matchesPatternList tag c.tags then false
    else if c.tags.isEmpty then false
    else true

/-- `PipelineMatcher._matches_branch_push`. -/
def matchesBranchPush (e : PushEvent) (c : PushFilters) : Bool :=
  let branch := e.branch
  if !c.branches_ignore.isEmpty && matchesPatternList branch c.branches_ignore then false
  else if !c.branches.isEmpty && !matchesPatternList branch c.branches then false
  else if !c.paths.isEmpty || !c.paths_ignore.isEmpty then
    let files := e.changed_files
    if !c.paths_ignore.isEmpty &&
        (files.all (fun f => matchesPathPatternList f c.paths_ignore) &&
         !files.isEmpty) then false
    else if !c.paths.isEmpty &&
        !(files.any (fun f => matchesPathPatternList f c.paths)) then false
    else true
  else true

/-- `PipelineMatcher.matches_push`. -/
def matches_push (cfg : TriggerCfg) (e : PushEvent) : Bool :=
  match cfg.push with
  | none => false
  | some .trueVal => true
  | some .emptyDict => true
  | some (.filters c) =>
    if e.is_tag then matchesTagPush e c else matchesBranchPush e c

/-! ## The push algorithm as the specification words it (section 4.4)

Modelled from the spec text, step by step, for comparison with
`matches_push`:
1. no `push` key: false; 2. empty/true config: true;
3. tag ref: `tags_ignore` match: false; `tags` empty: false; else
   require `tags` to match;
4. branch push: `branches_ignore` match: false; `branches` non-empty
   without a match: false;
5. `paths_ignore` given and every changed file matches it (and there is
   at least one changed file): false; `paths` given and no changed file
   matches: false;
6. otherwise true. -/
def specPush (cfg : TriggerCfg) (e : PushEvent) : Bool :=
  match cfg.push with
  | none => false
  | some .trueVal => true
  | some .emptyDict => true
  | some (.filters c) =>
    if e.is_tag then
      let tag := (e.tagName).getD ""
      if matchesPatternList tag c.tags_ignore then false
      else if c.tags.isEmpty then false
      else matchesPatternList tag c.tags
    else
      let branch := e.branch
      if matchesPatternList branch c.branches_ignore then false
      else if !c.branches.isEmpty && !matchesPatternList branch c.branches then false
      else if !c.paths_ignore.isEmpty &&
          (e.changed_files.all (fun f => matchesPathPatternList f c.paths_ignore) &&
           !e.changed_files.isEmpty) then false
      else if !c.paths.isEmpty &&
          !(e.changed_files.any (fun f => matchesPathPatternList f c.paths)) then false
      else true

/-- The spec push algorithm amended at the single point the code
deviates: a tag ref whose tag name is empty (a ref that is exactly
`refs/tags/`) never triggers, regardless of the `tags` filter
(`_matches_tag_push` guards `if not tag: return False`). -/
def specPushAmended (cfg : TriggerCfg) (e : PushEvent) : Bool :=
  match cfg.push with
  | none => false
  | some .trueVal => true
  | some .emptyDict => true
  | some (.filters c) =>
    if e.is_tag then
      let tag := (e.tagName).getD ""
      if tag == "" then false
      else if matchesPatternList tag c.tags_ignore then false
      else if c.tags.isEmpty then false
      else matchesPatternList tag c.tags
    else
      let branch := e.branch
      if matchesPatternList branch c.branches_ignore then false
      else if !c.branches.isEmpty && !matchesPatternList branch c.branches then false
      else if !c.paths_ignore.isEmpty &&
          (e.changed_files.all (fun f => matchesPathPatternList f c.paths_ignore) &&
           !e.changed_files.isEmpty) then false
      else if !c.paths.isEmpty &&
          !(e.changed_files.any (fun f => matchesPathPatternList f c.paths)) then false
      else true

/-! ## Claim C1: the push matcher against the spec algorithm -/

/-- The emptiness guard the source puts in front of each ignore-list
check is redundant: matching against an empty pattern list is false. -/
theorem guard_matchesPatternList (v : String) (l : List String) :
    (!l.isEmpty && matchesPatternList v l) = matchesPatternList v l := by
  cases l with
  | nil => simp [matchesPatternList]
  | cons a t => simp

/-- C1 (counterexample).  The spec push algorithm and
`PipelineMatcher.matches_push` disagree on a push whose ref is exactly
`refs/tags/` (empty tag name) against a config whose `tags` filter
matches the empty string: the code refuses (`if not tag` guard in
`_matches_tag_push`), the spec algorithm requires `tags` to match and
accepts. -/
theorem c1_push_algorithm_counterexample :
    matches_push ⟨some (.filters { tags := ["**"] })⟩ ⟨"refs/tags/", false, []⟩ = false ∧
    specPush ⟨some (.filters { tags := ["**"] })⟩ ⟨"refs/tags/", false, []⟩ = true := by
  exact ⟨by decide, by decide⟩

/-- C1 (amended).  `matches_push` computes exactly the spec push
algorithm amended with one extra rule: a tag ref with an empty tag name
never matches. -/
theorem c1_matches_push_eq_spec_amended (cfg : TriggerCfg) (e : PushEvent) :
    matches_push cfg e = specPushAmended cfg e := by
  obtain ⟨push⟩ := cfg
  match push with
  | none => rfl
  | some .trueVal => rfl
  | some .emptyDict => rfl
  | some (.filters c) =>
    simp only [matches_push, specPushAmended]
    by_cases ht : e.is_tag
    · simp only [ht, if_true]
      have htag : e.tagName = some (strDropN e.ref 10) := by
        simp only [PushEvent.tagName]
        simp only [PushEvent.is_tag] at ht
        simp [ht]
      simp only [matchesTagPush, htag, Option.getD_some]
      by_cases h0 : strDropN e.ref 10 == ""
      · simp [h0]
      · simp only [h0, Bool.false_eq_true, if_false]
        rw [guard_matchesPatternList]
        by_cases hig : matchesPatternList (strDropN e.ref 10) c.tags_ignore
        · simp [hig]
        · simp only [hig, Bool.false_eq_true, if_false]
          cases htg : c.tags with
          | nil => simp [matchesPatternList]
          | cons b m =>
            by_cases hm : matchesPatternList (strDropN e.ref 10) (b :: m)
            · simp [hm]
            · simp [hm]
    · simp only [ht, Bool.false_eq_true, if_false, matchesBranchPush]
      rw [guard_matchesPatternList]
      by_cases hbi : matchesPatternList e.branch c.branches_ignore
      · simp [hbi]
      · simp only [hbi, Bool.false_eq_true, if_false]
        by_cases hb : (!c.branches.isEmpty && !matchesPatternList e.branch c.branches)
        · simp [hb]
        · simp only [hb, Bool.false_eq_true, if_false]
          by_cases hpp : (!c.paths.isEmpty || !c.paths_ignore.isEmpty)
          · simp only [hpp, if_true]
          · simp only [hpp, Bool.false_eq_true, if_false]
            simp only [Bool.or_eq_true, Bool.not_eq_true', not_or] at hpp
            obtain ⟨h1, h2⟩ := hpp
            simp only [Bool.not_eq_false] at h1 h2
            simp [h1, h2]

/-! ## SHA-256, HMAC and the webhook signature verifier
(`apps/webhooks/utils.py`, `GitHubSignatureVerifier`)

Bytes are `Nat` below 256, 32-bit words are `Nat` reduced modulo `2^32`
after every arithmetic step.  `hmac.compare_digest` is modelled by its
value semantics (equality of the two digest strings): constant-time
execution is a timing property with no shallow-embedding counterpart. -/

def w32 (n : Nat) : Nat := n % 4294967296

def rotR32 (n x : Nat) : Nat := w32 ((x >>> n) ||| (x <<< (32 - n)))

def sumA (x : Nat) : Nat := (rotR32 2 x) ^^^ (rotR32 13 x) ^^^ (rotR32 22 x)

def sumE (x : Nat) : Nat := (rotR32 6 x) ^^^ (rotR32 11 x) ^^^ (rotR32 25 x)

def sigA (x : Nat) : Nat := (rotR32 7 x) ^^^ (rotR32 18 x) ^^^ (x >>> 3)

def sigE (x : Nat) : Nat := (rotR32 17 x) ^^^ (rotR32 19 x) ^^^ (x >>> 10)

def chooseF (x y z : Nat) : Nat := (x &&& y) ^^^ ((x ^^^ 4294967295) &&& z)

def majorityF (x y z : Nat) : Nat := (x &&& y) ^^^ (x &&& z) ^^^ (y &&& z)

def sha256K : List Nat :=
  [1116352408, 1899447441, 3049323471, 3921009573, 961987163,
   1508970993, 2453635748, 2870763221, 3624381080, 310598401,
   607225278, 1426881987, 1925078388, 2162078206, 2614888103,
   3248222580, 3835390401, 4022224774, 264347078, 604807628,
   770255983, 1249150122, 1555081692, 1996064986, 2554220882,
   2821834349, 2952996808, 3210313671, 3336571891, 3584528711,
   113926993, 338241895, 666307205, 773529912, 1294757372,
   1396182291, 1695183700, 1986661051, 2177026350, 2456956037,
   2730485921, 2820302411, 3259730800, 3345764771, 3516065817,
   3600352804, 4094571909, 275423344, 430227734, 506948616,
   659060556, 883997877, 958139571, 1322822218, 1537002063,
   1747873779, 1955562222, 2024104815, 2227730452, 2361852424,
   2428436474, 2756734187, 3204031479, 3329325298]

def sha256Init : List Nat :=
  [1779033703, 3144134277, 1013904242, 2773480762,
   1359893119, 2600822924, 528734635, 1541459225]

/-- Pack big-endian groups of four bytes into 32-bit words. -/
def toWords : List Nat → List Nat
  | a :: b :: c :: d :: rest =>
      ((a <<< 24) ||| (b <<< 16) ||| (c <<< 8) ||| d) :: toWords rest
  | _ => []

/-- Extend the 16 message-schedule words to 64. -/
def extendW : Nat → List Nat → List Nat
  | 0, w => w
  | n + 1, w =>
      let i := w.length
      extendW n (w ++ [w32 (w.getD (i - 16) 0 + sigA (w.getD (i - 15) 0) +
        w.getD (i - 7) 0 + sigE (w.getD (i - 2) 0))])

/-- One compression round over the eight-word state. -/
def sha256Round (st : List Nat) (kw : Nat × Nat) : List Nat :=
  match st with
  | [a, b, c, d, e, f, g, h] =>
      let t1 := w32 (h + sumE e + chooseF e f g + kw.1 + kw.2)
      let t2 := w32 (sumA a + majorityF a b c)
      [w32 (t1 + t2), a, b, c, w32 (d + t1), e, f, g]
  | st => st

def sha256Block (h : List Nat) (block : List Nat) : List Nat :=
  let w := extendW 48 (toWords block)
  let st := (sha256K.zip w).foldl sha256Round h
  (h.zip st).map (fun p => w32 (p.1 + p.2))

/-- Split a byte list into 64-byte blocks (fuel over-approximates the
number of blocks). -/
def chunks64F : Nat → List Nat → List (List Nat)
  | 0, _ => []
  | _ + 1, [] => []
  | f + 1, l => l.take 64 :: chunks64F f (l.drop 64)

/-- SHA-256 of a byte list, as bytes. -/
def sha256 (msg : List Nat) : List Nat :=
  let l := msg.length
  let padZeros := (119 - l % 64) % 64
  let bits := 8 * l
  let lenBytes := [(bits >>> 56) &&& 255, (bits >>> 48) &&& 255,
    (bits >>> 40) &&& 255, (bits >>> 32) &&& 255, (bits >>> 24) &&& 255,
    (bits >>> 16) &&& 255, (bits >>> 8) &&& 255, bits &&& 255]
  let padded := msg ++ 128 :: List.replicate padZeros 0 ++ lenBytes
  let final := (chunks64F (padded.length + 1) padded).foldl sha256Block sha256Init
  final.foldr (fun x acc =>
    ((x >>> 24) &&& 255) :: ((x >>> 16) &&& 255) :: ((x >>> 8) &&& 255) ::
      (x &&& 255) :: acc) []

/-- HMAC-SHA256 (block size 64). -/
def hmacSha256 (key msg : List Nat) : List Nat :=
  let k0 := if key.length > 64 then sha256 key else key
  let kp := k0 ++ List.replicate (64 - k0.length) 0
  let ipad := kp.map (fun b => b ^^^ 54)
  let opad := kp.map (fun b => b ^^^ 92)
  sha256 (opad ++ sha256 (ipad ++ msg))

def hexChar (n : Nat) : Char :=
  if n < 10 then Char.ofNat (48 + n) else Char.ofNat (87 + n)

/-- Lowercase hex encoding of a byte list (Python `hexdigest`). -/
def hexOfBytes (bs : List Nat) : String :=
  String.mk (bs.foldr (fun b acc => hexChar (b / 16) :: hexChar (b % 16) :: acc) [])

/-- UTF-8 encoding of one code point (Python `str.encode`). -/
def utf8Char (c : Char) : List Nat :=
  let n := c.toNat
  if n < 128 then [n]
  else if n < 2048 then [192 ||| (n >>> 6), 128 ||| (n &&& 63)]
  else if n < 65536 then
    [224 ||| (n >>> 12), 128 ||| ((n >>> 6) &&& 63), 128 ||| (n &&& 63)]
  else
    [240 ||| (n >>> 18), 128 ||| ((n >>> 12) &&& 63),
     128 ||| ((n >>> 6) &&& 63), 128 ||| (n &&& 63)]

def strUtf8 (s : String) : List Nat :=
  s.data.foldr (fun c acc => utf8Char c ++ acc) []

/-- `GitHubSignatureVerifier._compute_signature`. -/
def computeSignature (secret : String) (payload : List Nat) : String :=
  hexOfBytes (hmacSha256 (strUtf8 secret) payload)

/-- `GitHubSignatureVerifier.verify`: accept with no secret configured,
reject a missing header or one without the `sha256=` marker, otherwise
compare the hex digests. -/
def verifySignature (secret : String) (payload : List Nat) (signature : String) : Bool :=
  if secret == "" then true
  else if signature == "" then false
  else if !(strStartsWith signature "sha256=") then false
  else computeSignature secret payload == strDropN signature 7

/-! ## Claim C2: acceptance condition of the signature verifier -/

/-- C2.  `verify` accepts exactly when the secret is missing, or the
header starts with `sha256=` and its remainder is the hex HMAC-SHA256
digest of the body under the secret; so with a secret configured a
missing header, a header without the marker, and a header with any
differing hex character are all rejected. -/
theorem c2_verify_iff (secret : String) (payload : List Nat) (signature : String) :
    verifySignature secret payload signature = true ↔
      (secret = "" ∨
        (strStartsWith signature "sha256=" = true ∧
         strDropN signature 7 = computeSignature secret payload)) := by
  unfold verifySignature
  by_cases hs : secret = ""
  · simp [hs]
  · simp only [hs, beq_iff_eq, if_false, or_false]
    by_cases hsig : signature = ""
    · have : strStartsWith "" "sha256=" = false := by decide
      simp [hsig, this]
    · simp only [hsig, if_false]
      by_cases hsw : strStartsWith signature "sha256="
      · simp only [hsw, Bool.not_true, Bool.false_eq_true, if_false, true_and, false_or]
        constructor
        · intro h
          exact (beq_iff_eq.mp h).symm
        · intro h
          exact beq_iff_eq.mpr h.symm
      · simp only [hsw]
        simp [hsw]

/-! ## YAML values

Free-form parsed-YAML data (`yaml.safe_load` output): the tagged-union
value tree of spec section 9.  Mapping keys are strings and mappings
keep declaration order, as CPython dicts do. -/

inductive Yaml where
  | null
  | bool (b : Bool)
  | int (n : Int)
  | str (s : String)
  | list (xs : List Yaml)
  | map (kvs : List (String × Yaml))

mutual

/-- Python `==` on parsed YAML values.  Mapping equality is modelled as
ordered key-value equality: parsed YAML mappings carry declaration
order, and the values compared by the matrix expander are scalars. -/
def yamlBeq : Yaml → Yaml → Bool
  | .null, .null => true
  | .bool a, .bool b => a == b
  | .int a, .int b => a == b
  | .str a, .str b => a == b
  | .list xs, .list ys => yamlListBeq xs ys
  | .map xs, .map ys => yamlMapBeq xs ys
  | _, _ => false

def yamlListBeq : List Yaml → List Yaml → Bool
  | [], [] => true
  | x :: xs, y :: ys => yamlBeq x y && yamlListBeq xs ys
  | _, _ => false

def yamlMapBeq : List (String × Yaml) → List (String × Yaml) → Bool
  | [], [] => true
  | (k1, v1) :: xs, (k2, v2) :: ys => k1 == k2 && yamlBeq v1 v2 && yamlMapBeq xs ys
  | _, _ => false

end

/-! ## Matrix expander (`apps/pipelines/matrix.py`)

A combination is the dict `dict(zip(keys, combo))`, kept as an
association list in declaration order.  The `include` and `exclude`
Lean field names carry a trailing marker because `include` collides
with keyword-like identifiers. -/

/-- A matrix combination or include/exclude entry: a dict in
declaration order. -/
abbrev Assign : Type := List (String × Yaml)

/-- Python `combination[key]` lookup. -/
def assignLookup (a : Assign) (k : String) : Option Yaml :=
  match a with
  | [] => none
  | kv :: rest => if kv.1 == k then some kv.2 else assignLookup rest k

structure MatrixCfg where
  vars : List (String × List Yaml)
  inclE : List Assign
  exclE : List Assign

structure Strategy where
  matrix : Option MatrixCfg

/-- `itertools.product(*values)`: the first pool varies slowest. -/
def pyProduct : List (List Yaml) → List (List Yaml)
  | [] => [[]]
  | v :: rest => v.flatMap (fun x => (pyProduct rest).map (fun t => x :: t))

/-- `matrix._matches_pattern`: every key of the pattern exists in the
combination with an equal value. -/
def mtxMatchesPattern (combination : Assign) (pattern : Assign) : Bool :=
  pattern.all (fun kv =>
    match assignLookup combination kv.1 with
    | some v => yamlBeq v kv.2
    | none => false)

/-- `matrix._should_exclude`. -/
def shouldExclude (combination : Assign) (excludeList : List Assign) : Bool :=
  excludeList.any (fun p => mtxMatchesPattern combination p)

/-- The base combinations: `dict(zip(keys, combo))` for each element of
the cartesian product, in product order. -/
def baseCombos (m : MatrixCfg) : List Assign :=
  (pyProduct (m.vars.map (fun kv => kv.2))).map
    (fun combo => (m.vars.map (fun kv => kv.1)).zip combo)

/-- `expand_matrix`, collected into a list in yield order.  The base
product is only emitted under the source's `if variables:` guard; the
include entries follow verbatim. -/
def expand_matrix (s : Strategy) : List Assign :=
  match s.matrix with
  | none => [[]]
  | some m =>
      (if !m.vars.isEmpty then
        (baseCombos m).filter (fun c => !shouldExclude c m.exclE)
       else []) ++ m.inclE

/-- `count_matrix_combinations`. -/
def count_matrix_combinations (s : Strategy) : Nat :=
  (expand_matrix s).length

/-! ## The matrix algorithm as the specification words it (section 4.3)

The spec-side cartesian product is written independently, as the
accumulating left fold `itertools.product` documents (`result = [x+[y]
for x in result for y in pool]`), so that the comparison with the
recursive source-side product is meaningful. -/

/-- Cartesian product as an accumulating left fold over the pools. -/
def specCartProd (pools : List (List Yaml)) : List (List Yaml) :=
  pools.foldl (fun acc pool => acc.flatMap (fun x => pool.map (fun y => x ++ [y]))) [[]]

/-- Modelled from the spec: emit the cartesian product over `variables`
in declaration order, drop any combination matched by an `exclude`
pattern, then emit each `include` entry verbatim; an empty `matrix`
yields exactly one empty combination. -/
def specExpand (s : Strategy) : List Assign :=
  match s.matrix with
  | none => [[]]
  | some m =>
      ((specCartProd (m.vars.map (fun kv => kv.2))).map
        (fun combo => (m.vars.map (fun kv => kv.1)).zip combo)).filter
          (fun c => !shouldExclude c m.exclE) ++ m.inclE

/-- The spec expansion amended at the single point the code deviates:
when `matrix` is present and non-empty but `variables` is empty (for
example a matrix holding only `include` entries), the base product
contributes nothing — only the include entries are yielded. -/
def specExpandAmended (s : Strategy) : List Assign :=
  match s.matrix with
  | none => [[]]
  | some m =>
      (if m.vars.isEmpty then []
       else
        ((specCartProd (m.vars.map (fun kv => kv.2))).map
          (fun combo => (m.vars.map (fun kv => kv.1)).zip combo)).filter
            (fun c => !shouldExclude c m.exclE)) ++ m.inclE

/-- The two product orders agree: the recursive right-nested product
equals the accumulating left fold, generalized over the accumulator. -/
theorem specCartProd_go (pools : List (List Yaml)) (acc : List (List Yaml)) :
    pools.foldl (fun acc pool => acc.flatMap (fun x => pool.map (fun y => x ++ [y]))) acc =
      acc.flatMap (fun x => (pyProduct pools).map (fun t => x ++ t)) := by
  induction pools generalizing acc with
  | nil =>
    simp [pyProduct]
  | cons v rest ih =>
    simp only [List.foldl_cons]
    rw [ih]
    simp [pyProduct, List.flatMap_assoc, List.map_flatMap, List.flatMap_map, List.append_assoc, Function.comp_def]

theorem pyProduct_eq_specCartProd (pools : List (List Yaml)) :
    pyProduct pools = specCartProd pools := by
  unfold specCartProd
  rw [specCartProd_go]
  simp

/-! ## Claim C5: matrix expansion order and contents -/

/-- C5 (counterexample).  On a strategy whose matrix is present but has
no variables (only the empty include/exclude lists), the source yields
nothing, while the spec expansion — the cartesian product over zero
variables — yields the single empty combination. -/
theorem c5_expand_matrix_counterexample :
    expand_matrix ⟨some ⟨[], [], []⟩⟩ = ([] : List Assign) ∧
    specExpand ⟨some ⟨[], [], []⟩⟩ = ([[]] : List Assign) := by
  exact ⟨rfl, rfl⟩

/-- C5 (amended).  `expand_matrix` yields exactly the spec expansion
amended at one point: when the matrix is present and `variables` is
empty the base product contributes nothing, so only the include entries
are yielded. -/
theorem c5_expand_matrix_eq_spec_amended (s : Strategy) :
    expand_matrix s = specExpandAmended s := by
  match s with
  | ⟨none⟩ => rfl
  | ⟨some m⟩ =>
    simp only [expand_matrix, specExpandAmended, baseCombos]
    cases hv : m.vars with
    | nil => simp
    | cons a l =>
      simp only [List.isEmpty_cons, Bool.not_false, if_true, Bool.false_eq_true, if_false]
      rw [pyProduct_eq_specCartProd]

/-! ## Claim C9: the counting identity -/

/-- The number of base-product combinations matched by some exclude
entry. -/
def excludedCount (m : MatrixCfg) : Nat :=
  ((baseCombos m).filter (fun c => shouldExclude c m.exclE)).length

/-- Modelled from the spec formula: product of the variable list
lengths, minus the excluded base combinations, plus the include
entries, the empty product counting as 1. -/
def specCount (s : Strategy) : Nat :=
  match s.matrix with
  | none => 1
  | some m =>
      (m.vars.map (fun kv => kv.2.length)).prod - excludedCount m + m.inclE.length

/-- The spec counting formula amended at the single point the code
deviates: a present matrix with no variables contributes no base
combinations at all (not the empty product 1). -/
def specCountAmended (s : Strategy) : Nat :=
  match s.matrix with
  | none => 1
  | some m =>
      (if m.vars.isEmpty then 0
       else (m.vars.map (fun kv => kv.2.length)).prod - excludedCount m) +
        m.inclE.length

theorem filter_not_length_add {α : Type} (p : α → Bool) (l : List α) :
    (l.filter (fun a => !p a)).length + (l.filter p).length = l.length := by
  induction l with
  | nil => rfl
  | cons a t ih =>
    cases h : p a <;> simp [List.filter_cons, h] <;> omega

theorem pyProduct_length (pools : List (List Yaml)) :
    (pyProduct pools).length = (pools.map List.length).prod := by
  induction pools with
  | nil => rfl
  | cons v rest ih =>
    simp only [pyProduct, List.length_flatMap, List.map_map, List.map_cons, List.prod_cons]
    have : (List.map (List.length ∘ fun x => List.map (fun t => x :: t) (pyProduct rest)) v) =
        List.map (fun _ => (pyProduct rest).length) v := by
      simp [Function.comp_def]
    rw [this, ih]
    induction v with
    | nil => simp
    | cons x xs ihv => simp [ihv, Nat.succ_mul, Nat.add_comm]

/-- C9 (counterexample).  On a strategy whose matrix is present but has
no variables, the source yields no combinations, while the spec formula
counts the empty product as 1. -/
theorem c9_count_counterexample :
    count_matrix_combinations ⟨some ⟨[], [], []⟩⟩ = 0 ∧
    specCount ⟨some ⟨[], [], []⟩⟩ = 1 := by
  exact ⟨rfl, rfl⟩

/-- C9 (amended).  The number of combinations yielded by
`expand_matrix` is the product of the variable list lengths minus the
excluded base combinations plus the include entries, except that a
present matrix with empty `variables` contributes zero base
combinations instead of the empty product 1. -/
theorem c9_count_eq_formula_amended (s : Strategy) :
    count_matrix_combinations s = specCountAmended s := by
  match s with
  | ⟨none⟩ => rfl
  | ⟨some m⟩ =>
    simp only [count_matrix_combinations, expand_matrix, specCountAmended]
    by_cases hv : m.vars.isEmpty
    · simp [hv]
    · have hb : m.vars.isEmpty = false := by
        revert hv
        cases m.vars.isEmpty <;> simp
      simp only [hb, Bool.not_false, if_true, Bool.false_eq_true, if_false,
        List.length_append]
      have h1 : (baseCombos m).length = ((m.vars.map (fun kv => kv.2)).map List.length).prod := by
        simp only [baseCombos, List.length_map]
        exact pyProduct_length _
      have h2 := filter_not_length_add (fun c => shouldExclude c m.exclE) (baseCombos m)
      have h3 : ((m.vars.map (fun kv => kv.2)).map List.length).prod =
          (m.vars.map (fun kv => kv.2.length)).prod := by
        simp [List.map_map, Function.comp_def]
      unfold excludedCount
      omega

/-! ## Execution numbering
(`apps/webhooks/views.py` and `apps/executions/views.py`)

An execution number allocation only reads the set of numbers already
present for the pipeline, carried here as a list of naturals (numbers
are positive, the empty case yields 0 via `or 0`). -/

/-- The `order_by('-number').first() or 0` read used by the webhook
creation paths and `Execution.get_next_number`: the largest existing
number, 0 when there is none. -/
def maxNumber (existing : List Nat) : Nat :=
  existing.foldr max 0

/-- Number allocation of `_create_execution_for_push`,
`_create_execution_for_pr` and `Execution.get_next_number`:
`max(existing) + 1`. -/
def get_next_number (existing : List Nat) : Nat :=
  maxNumber existing + 1

/-- Number allocation of `ExecutionViewSet.retry` (line 92):
`Execution.objects.filter(pipeline=...).count() + 1`. -/
def retryNextNumber (existing : List Nat) : Nat :=
  existing.length + 1

/-! ## Claim C4: allocation is max+1 and never collides -/

/-- C4.  The retry endpoint does not allocate `max(existing) + 1`: on a
pipeline whose remaining executions are numbered 1 and 3 (number 2 was
deleted), retry allocates `count + 1 = 3`, which collides with the
existing number 3, while the webhook allocation (`max + 1`) yields the
fresh number 4. -/
theorem c4_retry_count_allocation_collides :
    retryNextNumber [1, 3] = 3 ∧ 3 ∈ [1, 3] ∧
    get_next_number [1, 3] = 4 ∧ 4 ∉ [1, 3] := by
  refine ⟨rfl, by decide, rfl, by decide⟩

/-! ## Runner status updates
(`apps/runners/consumers.py`, `RunnerConsumer.update_entity_status`)

The database rows are reduced to the fields the handler writes; `now`
stands for `timezone.now()`. -/

structure JobRow where
  status : String
  started_at : Option Nat
  finished_at : Option Nat
  outputs : Yaml

structure StepRow where
  status : String
  exit_code : Option Int
  started_at : Option Nat
  finished_at : Option Nat
  outputs : Yaml

/-- The terminal statuses the job branch of `update_entity_status`
recognizes (line 318) — `skipped` is absent. -/
def jobTerminalStatuses : List String :=
  ["success", "failed", "cancelled", "timeout"]

/-- The terminal statuses the step branch recognizes (line 330). -/
def stepTerminalStatuses : List String :=
  ["success", "failed", "cancelled", "timeout", "skipped"]

/-- `update_entity_status` for `entity_type == 'job'`. -/
def updateJobStatus (j : JobRow) (status : String) (outputs : Yaml) (now : Nat) : JobRow :=
  if status == "running" then
    { j with status := status, started_at := some now }
  else if jobTerminalStatuses.contains status then
    { j with status := status, finished_at := some now, outputs := outputs }
  else
    { j with status := status }

/-- `update_entity_status` for `entity_type == 'step'`. -/
def updateStepStatus (s : StepRow) (status : String) (exitCode : Option Int)
    (outputs : Yaml) (now : Nat) : StepRow :=
  let s1 := match exitCode with
    | some c => { s with exit_code := some c }
    | none => s
  if status == "running" then
    { s1 with status := status, started_at := some now }
  else if stepTerminalStatuses.contains status then
    { s1 with status := status, finished_at := some now, outputs := outputs }
  else
    { s1 with status := status }

/-! ## Claim C7: finished_at on terminal status -/

/-- C7.  A `status_update` that moves a job to `skipped` — a terminal
status in the spec lifecycle, and one the step branch of the very same
handler treats as terminal — does not set the job's `finished_at`: the
job branch omits `skipped` from its terminal tuple. -/
theorem c7_job_skipped_misses_finished_at :
    (updateJobStatus ⟨"running", some 5, none, Yaml.null⟩ "skipped" Yaml.null 9).finished_at
      = none ∧
    (updateStepStatus ⟨"running", none, some 5, none, Yaml.null⟩ "skipped" none
      Yaml.null 9).finished_at = some 9 ∧
    jobTerminalStatuses.contains "skipped" = false ∧
    stepTerminalStatuses.contains "skipped" = true := by
  refine ⟨rfl, rfl, by decide, by decide⟩

/-! ## Webhook push processing
(`apps/webhooks/views.py`, `GitHubWebhookView._process_event` and
`_create_execution_for_push`)

Each candidate pipeline is reduced to its latest config (presence,
validity, parsed triggers) and the numbers of its existing executions. -/

structure PipelineRec where
  hasConfig : Bool
  is_valid : Bool
  parsed_config : TriggerCfg
  existing : List Nat

structure ExecRec where
  number : Nat
  trigger_type : String

/-- `_create_execution_for_push`: deleted refs create nothing,
otherwise an execution with the next max-based number. -/
def createExecutionForPush (p : PipelineRec) (e : PushEvent) : Option ExecRec :=
  if e.deleted then none
  else some ⟨get_next_number p.existing, "push"⟩

/-- The push arm of `_process_event`: skip pipelines without a valid
config, skip non-matching ones, create otherwise, collect in order. -/
def processPushEvent (pipelines : List PipelineRec) (e : PushEvent) : List ExecRec :=
  pipelines.foldl (fun acc p =>
    if !p.hasConfig || !p.is_valid then acc
    else if !(matches_push p.parsed_config e) then acc
    else
      match createExecutionForPush p e with
      | some ex => acc ++ [ex]
      | none => acc) []

theorem processPushEvent_deleted_go (pipelines : List PipelineRec) (e : PushEvent)
    (acc : List ExecRec) :
    pipelines.foldl (fun acc p =>
      if !p.hasConfig || !p.is_valid then acc
      else if !(matches_push p.parsed_config { e with deleted := true }) then acc
      else
        match createExecutionForPush p { e with deleted := true } with
        | some ex => acc ++ [ex]
        | none => acc) acc = acc := by
  induction pipelines generalizing acc with
  | nil => rfl
  | cons p ps ih =>
    simp only [List.foldl_cons, createExecutionForPush, if_true]
    split
    · exact ih acc
    · split
      · exact ih acc
      · exact ih acc

/-! ## Claim C10: deleted pushes trigger nothing -/

/-- C10.  A push event whose `deleted` flag is set creates no execution
for any pipeline, whatever the pipelines' configs or the event's ref
and changed files: `_create_execution_for_push` returns before the
insert. -/
theorem c10_deleted_push_creates_nothing (pipelines : List PipelineRec) (e : PushEvent) :
    processPushEvent pipelines { e with deleted := true } = [] := by
  unfold processPushEvent
  exact processPushEvent_deleted_go pipelines e []

/-! ## Log backlog (`apps/logs/consumers.py`, `LogConsumer`)

A stored log chunk is reduced to its sort key
`(step__job_id, step__order, chunk_number)` plus content; identifiers
are naturals.  The SQL `order_by` is modelled as insertion sort under
the lexicographic key order (the key is unique per chunk in any
reachable store, so tie order is immaterial). -/

structure ChunkRec where
  job_id : Nat
  step_order : Nat
  chunk_number : Nat
  content : String

/-- Lexicographic order on the `order_by` key. -/
def keyLe (a b : ChunkRec) : Prop :=
  a.job_id < b.job_id ∨
    (a.job_id = b.job_id ∧
      (a.step_order < b.step_order ∨
        (a.step_order = b.step_order ∧ a.chunk_number ≤ b.chunk_number)))

instance : DecidableRel keyLe := fun a b => by
  unfold keyLe
  infer_instance

instance : IsTotal ChunkRec keyLe := ⟨by
  intro a b
  unfold keyLe
  omega⟩

instance : IsTrans ChunkRec keyLe := ⟨by
  intro a b c
  unfold keyLe
  omega⟩

/-- `LogConsumer.get_existing_logs`: all chunks of the subscribed
scope, ordered by `(step__job_id, step__order, chunk_number)`, sliced
with `[:1000]`. -/
def get_existing_logs (chunks : List ChunkRec) : List ChunkRec :=
  (List.insertionSort keyLe chunks).take 1000

inductive LogFrame where
  | log (c : ChunkRec)
  | historyComplete (count : Nat)

/-- `LogConsumer.send_history`: each backlog chunk as a `log` frame,
then the `history_complete` marker with the count. -/
def send_history (chunks : List ChunkRec) : List LogFrame :=
  (get_existing_logs chunks).map LogFrame.log ++
    [LogFrame.historyComplete (get_existing_logs chunks).length]

/-- Modelled from the spec: the 1000 *most recent* chunks in that
order, i.e. the greatest-keyed tail of the sorted sequence. -/
def specMostRecent (chunks : List ChunkRec) : List ChunkRec :=
  (List.insertionSort keyLe chunks).drop
    ((List.insertionSort keyLe chunks).length - 1000)

/-! ## Claim C8: backlog bound, order, and which chunks are kept -/

/-- C8 (counterexample).  With 1001 chunks stored for one step, the
backlog starts at chunk 0 — the slice `[:1000]` keeps the *first*
thousand in ascending key order — while the most recent thousand of the
spec start at chunk 1. -/
theorem c8_backlog_counterexample :
    (get_existing_logs ((List.range 1001).map
      (fun n => ChunkRec.mk 1 1 n ""))).head? = some (ChunkRec.mk 1 1 0 "") ∧
    (specMostRecent ((List.range 1001).map
      (fun n => ChunkRec.mk 1 1 n ""))).head? = some (ChunkRec.mk 1 1 1 "") := by
  have hsorted : List.Pairwise keyLe ((List.range 1001).map
      (fun n => ChunkRec.mk 1 1 n "")) := by
    rw [List.pairwise_map]
    exact (List.pairwise_lt_range 1001).imp (fun h => Or.inr ⟨rfl, Or.inr ⟨rfl, Nat.le_of_lt h⟩⟩)
  have heq : List.insertionSort keyLe ((List.range 1001).map
      (fun n => ChunkRec.mk 1 1 n "")) =
      (List.range 1001).map (fun n => ChunkRec.mk 1 1 n "") :=
    List.Sorted.insertionSort_eq hsorted
  constructor
  · rw [List.head?_eq_getElem?]
    simp only [get_existing_logs, heq, List.getElem?_take, List.getElem?_map]
    rw [if_pos (by omega), List.getElem?_range (by omega)]
    rfl
  · simp only [specMostRecent, heq, List.length_map, List.length_range]
    rw [List.head?_eq_getElem?, List.getElem?_drop, List.getElem?_map,
      List.getElem?_range (by omega)]
    rfl

/-- C8 (amended).  The backlog a subscriber receives is at most 1000
frames, sorted by `(job_id, step order, chunk_number)`, followed by the
`history_complete` marker and only then live frames; when more chunks
exist than fit, the ones sent are the *earliest* in that order — every
omitted chunk sorts at-or-after every sent chunk — not the most
recent. -/
theorem c8_backlog_bounded_sorted_earliest (chunks : List ChunkRec) :
    send_history chunks =
      (get_existing_logs chunks).map LogFrame.log ++
        [LogFrame.historyComplete (get_existing_logs chunks).length] ∧
    (get_existing_logs chunks).length ≤ 1000 ∧
    List.Pairwise keyLe (get_existing_logs chunks) ∧
    ∀ b ∈ chunks, b ∉ get_existing_logs chunks →
      ∀ a ∈ get_existing_logs chunks, keyLe a b := by
  refine ⟨rfl, ?_, ?_, ?_⟩
  · exact List.length_take_le 1000 _
  · exact (List.sorted_insertionSort keyLe chunks).sublist (List.take_sublist 1000 _)
  · intro b hb hbnot a ha
    have hsorted : List.Pairwise keyLe (List.insertionSort keyLe chunks) :=
      List.sorted_insertionSort keyLe chunks
    have hmem : b ∈ List.insertionSort keyLe chunks :=
      ((List.perm_insertionSort keyLe chunks).mem_iff).mpr hb
    have hsplit := List.take_append_drop 1000 (List.insertionSort keyLe chunks)
    have hbdrop : b ∈ (List.insertionSort keyLe chunks).drop 1000 := by
      rcases (List.mem_append.mp (hsplit ▸ hmem)) with h | h
      · exact absurd h hbnot
      · exact h
    have := List.pairwise_append.mp (hsplit ▸ hsorted)
    exact this.2.2 a ha b hbdrop

/-! ## Pipeline YAML parser (`apps/pipelines/parser.py`)

The parser is embedded over the `Yaml` value tree (the result of
`yaml.safe_load`).  Python attribute/type errors raised by calling
`.get`/`.items`/iteration on a value of the wrong shape are modelled
with `Except PyErr`; the accumulated `self.errors` list is threaded
explicitly.  The embedding starts after the `yaml.safe_load` call:
`pipelineParse` takes the load outcome (`Except String Yaml`), since
`YAMLError` is caught and reported in the error list. -/

inductive PyErr where
  | attributeError (ty : String)
  | typeError (ty : String)

def yamlTypeName : Yaml → String
  | .null => "NoneType"
  | .bool _ => "bool"
  | .int _ => "int"
  | .str _ => "str"
  | .list _ => "list"
  | .map _ => "dict"

def yamlLookup (kvs : List (String × Yaml)) (k : String) : Option Yaml :=
  match kvs with
  | [] => none
  | kv :: rest => if kv.1 == k then some kv.2 else yamlLookup rest k

/-- Python `v.get(key, dflt)`: an `AttributeError` on any non-dict. -/
def pyGet (v : Yaml) (key : String) (dflt : Yaml) : Except PyErr Yaml :=
  match v with
  | .map kvs => pure ((yamlLookup kvs key).getD dflt)
  | v => .error (.attributeError (yamlTypeName v))

/-- Python `key in v` for a dict `v`. -/
def pyHasKey (kvs : List (String × Yaml)) (key : String) : Bool :=
  (yamlLookup kvs key).isSome

/-- Python `v.items()`: an `AttributeError` on any non-dict. -/
def pyItems (v : Yaml) : Except PyErr (List (String × Yaml)) :=
  match v with
  | .map kvs => pure kvs
  | v => .error (.attributeError (yamlTypeName v))

/-- Python iteration: list elements, string characters, dict keys;
`TypeError` otherwise. -/
def pyIter (v : Yaml) : Except PyErr (List Yaml) :=
  match v with
  | .list xs => pure xs
  | .str s => pure (s.data.map (fun c => .str (String.mk [c])))
  | .map kvs => pure (kvs.map (fun kv => .str kv.1))
  | v => .error (.typeError (yamlTypeName v))

/-- Python truthiness of a parsed YAML value. -/
def pyTruthy : Yaml → Bool
  | .null => false
  | .bool b => b
  | .int n => n != 0
  | .str s => !s.data.isEmpty
  | .list xs => !xs.isEmpty
  | .map kvs => !kvs.isEmpty

/-- Python scalar dict keys carried by their display form (the `on:`
list comprehension keys); an unhashable list/dict key is a
`TypeError`. -/
def dictKeyOf : Yaml → Except PyErr String
  | .str s => pure s
  | .int n => pure (toString n)
  | .bool b => pure (if b then "True" else "False")
  | .null => pure "None"
  | v => .error (.typeError (yamlTypeName v))

def isWs (c : Char) : Bool :=
  c == ' ' || c == '\t' || c == '\n' || c == '\r' ||
    c == Char.ofNat 11 || c == Char.ofNat 12

/-- Python `s.split()`: split on whitespace runs, dropping empties. -/
def splitWs : List Char → List (List Char)
  | [] => []
  | c :: rest =>
      if isWs c then splitWs rest
      else
        match rest with
        | [] => [[c]]
        | d :: _ =>
          if isWs d then [c] :: splitWs rest
          else
            match splitWs rest with
            | g :: gs => (c :: g) :: gs
            | [] => [[c]]

/-- `PipelineParser._validate_cron`: 5 or 6 whitespace-separated
fields; calling `.split()` on a non-string raises. -/
def validateCron (cron : Yaml) : Except PyErr Bool :=
  match cron with
  | .str s =>
      let n := (splitWs s.data).length
      pure (n == 5 || n == 6)
  | v => .error (.attributeError (yamlTypeName v))

def asciiAlpha (c : Char) : Bool :=
  ('a' ≤ c && c ≤ 'z') || ('A' ≤ c && c ≤ 'Z')

def jobKeyRestChar (c : Char) : Bool :=
  asciiAlpha c || ('0' ≤ c && c ≤ '9') || c == '_' || c == '-'

def jobKeyRest : List Char → Bool
  | [] => true
  | ['\n'] => true
  | c :: rest => jobKeyRestChar c && jobKeyRest rest

/-- `PipelineParser._validate_job_key`:
`re.match(r'^[a-zA-Z_][a-zA-Z0-9_-]*$', key)`; the `$` anchor also
accepts one trailing newline, as Python regex does. -/
def validateJobKey (key : String) : Bool :=
  match key.data with
  | [] => false
  | c :: rest => (asciiAlpha c || c == '_') && jobKeyRest rest

/-- `PipelineParser._parse_push_trigger`. -/
def parsePushTrigger (config : Yaml) : Except PyErr Yaml :=
  match config with
  | .null => pure (.map [])
  | config => do
  let b ← pyGet config "branches" (.list [])
  let bi ← pyGet config "branches-ignore" (.list [])
  let p ← pyGet config "paths" (.list [])
  let pi ← pyGet config "paths-ignore" (.list [])
  let t ← pyGet config "tags" (.list [])
  let ti ← pyGet config "tags-ignore" (.list [])
  return .map [("branches", b), ("branches_ignore", bi), ("paths", p),
    ("paths_ignore", pi), ("tags", t), ("tags_ignore", ti)]

/-- `PipelineParser._parse_pr_trigger`. -/
def parsePrTrigger (config : Yaml) : Except PyErr Yaml :=
  match config with
  | .null => pure (.map [])
  | config => do
  let b ← pyGet config "branches" (.list [])
  let bi ← pyGet config "branches-ignore" (.list [])
  let p ← pyGet config "paths" (.list [])
  let pi ← pyGet config "paths-ignore" (.list [])
  let t ← pyGet config "types"
    (.list [.str "opened", .str "synchronize", .str "reopened"])
  return .map [("branches", b), ("branches_ignore", bi), ("paths", p),
    ("paths_ignore", pi), ("types", t)]

/-- `PipelineParser._parse_schedule_trigger`: keep items that are dicts
with a `cron` key; a valid cron is kept, an invalid one is an error. -/
def parseScheduleItems (items : List Yaml) (errs : List String) :
    Except PyErr (List Yaml × List String) :=
  match items with
  | [] => pure ([], errs)
  | item :: rest =>
      match item with
      | .map kvs =>
          match yamlLookup kvs "cron" with
          | some cron => do
              let ok ← validateCron cron
              if ok then do
                let (tail, errs') ← parseScheduleItems rest errs
                pure (.map [("cron", cron)] :: tail, errs')
              else
                parseScheduleItems rest (errs ++ ["Invalid cron expression"])
          | none => parseScheduleItems rest errs
      | _ => parseScheduleItems rest errs

def parseScheduleTrigger (config : Yaml) (errs : List String) :
    Except PyErr (Yaml × List String) := do
  let items ← pyIter config
  let (out, errs') ← parseScheduleItems items errs
  pure (.list out, errs')

/-- `PipelineParser._parse_workflow_dispatch`. -/
def parseWorkflowDispatchInput (icfg : Yaml) : Except PyErr Yaml := do
  let d ← pyGet icfg "description" (.str "")
  let r ← pyGet icfg "required" (.bool false)
  let dv ← pyGet icfg "default" .null
  let ty ← pyGet icfg "type" (.str "string")
  let opts ← pyGet icfg "options" (.list [])
  return .map [("description", d), ("required", r), ("default", dv),
    ("type", ty), ("options", opts)]

def parseWorkflowDispatch (config : Yaml) : Except PyErr Yaml :=
  match config with
  | .null => pure (.map [("inputs", .map [])])
  | config => do
  let inputsVal ← pyGet config "inputs" (.map [])
  let items ← pyItems inputsVal
  let parsed ← items.mapM (fun kv => do
    let v ← parseWorkflowDispatchInput kv.2
    pure (kv.1, v))
  return .map [("inputs", .map parsed)]

/-- `PipelineParser._parse_concurrency`. -/
def parseConcurrency (config : Yaml) : Except PyErr Yaml := do
  match config with
  | .str s => return .map [("group", .str s), ("cancel_in_progress", .bool false)]
  | .map kvs =>
      return .map [("group", (yamlLookup kvs "group").getD (.str "")),
        ("cancel_in_progress", (yamlLookup kvs "cancel-in-progress").getD (.bool false))]
  | _ => return .map []

/-- `PipelineParser._parse_triggers`. -/
def parseTriggers (onConfig : Yaml) (errs : List String) :
    Except PyErr (Yaml × List String) := do
  match onConfig with
  | .str s => pure (.map [(s, .map [])], errs)
  | .list items => do
      let keys ← items.mapM dictKeyOf
      pure (.map (keys.map (fun k => (k, .map []))), errs)
  | .map kvs => do
      let part1 : List (String × Yaml) ←
        match yamlLookup kvs "push" with
        | some v => do
            let p ← parsePushTrigger v
            pure [("push", p)]
        | none => pure []
      let part2 : List (String × Yaml) ←
        match yamlLookup kvs "pull_request" with
        | some v => do
            let p ← parsePrTrigger v
            pure [("pull_request", p)]
        | none => pure []
      let (part3, errs3) ←
        match yamlLookup kvs "schedule" with
        | some v => do
            let (p, e) ← parseScheduleTrigger v errs
            pure ([("schedule", p)], e)
        | none => pure ([], errs)
      let part4 : List (String × Yaml) ←
        match yamlLookup kvs "workflow_dispatch" with
        | some v => do
            let p ← parseWorkflowDispatch v
            pure [("workflow_dispatch", p)]
        | none => pure []
      pure (.map (part1 ++ part2 ++ part3 ++ part4), errs3)
  | _ => pure (.map [], errs)

/-- `PipelineParser._normalize_runs_on`. -/
def normalizeRunsOn : Yaml → Yaml
  | .str s => .list [.str s]
  | .list xs => .list xs
  | _ => .list []

/-- `PipelineParser._normalize_list`. -/
def normalizeList : Yaml → Yaml
  | .str s => .list [.str s]
  | .list xs => .list xs
  | _ => .list []

/-- `PipelineParser._parse_container`. -/
def parseContainer (config : Yaml) : Except PyErr Yaml := do
  match config with
  | .null => return .map []
  | .str s => return .map [("image", .str s)]
  | config => do
      let img ← pyGet config "image" (.str "")
      let cred ← pyGet config "credentials" (.map [])
      let env ← pyGet config "env" (.map [])
      let ports ← pyGet config "ports" (.list [])
      let vols ← pyGet config "volumes" (.list [])
      let opts ← pyGet config "options" (.str "")
      return .map [("image", img), ("credentials", cred), ("env", env),
        ("ports", ports), ("volumes", vols), ("options", opts)]

/-- `PipelineParser._parse_services`. -/
def parseServices (servicesConfig : Yaml) : Except PyErr Yaml := do
  let items ← pyItems servicesConfig
  let out ← items.mapM (fun kv => do
    let cfg := kv.2
    let img ← pyGet cfg "image" (.str "")
    let cred ← pyGet cfg "credentials" (.map [])
    let env ← pyGet cfg "env" (.map [])
    let ports ← pyGet cfg "ports" (.list [])
    let vols ← pyGet cfg "volumes" (.list [])
    let opts ← pyGet cfg "options" (.str "")
    pure (kv.1, Yaml.map [("image", img), ("credentials", cred), ("env", env),
      ("ports", ports), ("volumes", vols), ("options", opts)]))
  return .map out

/-- `PipelineParser._parse_strategy`. -/
def parseStrategy (config : Yaml) : Except PyErr Yaml := do
  if !pyTruthy config then
    return .map []
  let ff ← pyGet config "fail-fast" (.bool true)
  let mp ← pyGet config "max-parallel" .null
  let matrix ← pyGet config "matrix" (.map [])
  if pyTruthy matrix then do
    let incl ← pyGet matrix "include" (.list [])
    let excl ← pyGet matrix "exclude" (.list [])
    let items ← pyItems matrix
    let vars := items.filter (fun kv => kv.1 != "include" && kv.1 != "exclude")
    return .map [("fail_fast", ff), ("max_parallel", mp),
      ("matrix", .map [("include", incl), ("exclude", excl), ("variables", .map vars)])]
  else
    return .map [("fail_fast", ff), ("max_parallel", mp), ("matrix", .map [])]

/-- `PipelineParser._parse_step`. -/
def parseStep (index : Nat) (config : Yaml) (errs : List String) :
    Except PyErr (Yaml × List String) := do
  let name ← pyGet config "name" (.str ("Step " ++ toString (index + 1)))
  let id ← pyGet config "id" (.str "")
  let run ← pyGet config "run" (.str "")
  let uses ← pyGet config "uses" (.str "")
  let withI ← pyGet config "with" (.map [])
  let env ← pyGet config "env" (.map [])
  let wd ← pyGet config "working-directory" (.str "")
  let sh ← pyGet config "shell" (.str "bash")
  let cond ← pyGet config "if" (.str "")
  let coe ← pyGet config "continue-on-error" (.bool false)
  let tm ← pyGet config "timeout-minutes" (.int 60)
  let errs := if !pyTruthy run && !pyTruthy uses then
      errs ++ ["Step " ++ toString (index + 1) ++ " must have either run or uses"]
    else errs
  let errs := if pyTruthy run && pyTruthy uses then
      errs ++ ["Step " ++ toString (index + 1) ++ " cannot have both run and uses"]
    else errs
  let ty := if pyTruthy uses then "uses" else "run"
  pure (.map [("name", name), ("id", id), ("run", run), ("uses", uses),
    ("with", withI), ("env", env), ("working_directory", wd), ("shell", sh),
    ("condition", cond), ("continue_on_error", coe), ("timeout_minutes", tm),
    ("type", .str ty)], errs)

def parseStepsGo (index : Nat) (items : List Yaml) (errs : List String) :
    Except PyErr (List Yaml × List String) :=
  match items with
  | [] => pure ([], errs)
  | item :: rest => do
      let (s, errs') ← parseStep index item errs
      let (tail, errs'') ← parseStepsGo (index + 1) rest errs'
      pure (s :: tail, errs'')

/-- `PipelineParser._parse_steps`.  A parsed step dict is always truthy,
so the `if step:` filter of the source keeps every element. -/
def parseSteps (stepsConfig : Yaml) (errs : List String) :
    Except PyErr (List Yaml × List String) := do
  let items ← pyIter stepsConfig
  parseStepsGo 0 items errs

/-- `PipelineParser._parse_job`. -/
def parseJob (jobKey : String) (config : Yaml) (errs : List String) :
    Except PyErr (Yaml × List String) := do
  let name ← pyGet config "name" (.str jobKey)
  let runsOnRaw ← pyGet config "runs-on" (.list [])
  let needsRaw ← pyGet config "needs" (.list [])
  let cond ← pyGet config "if" (.str "")
  let containerRaw ← pyGet config "container" .null
  let container ← parseContainer containerRaw
  let servicesRaw ← pyGet config "services" (.map [])
  let services ← parseServices servicesRaw
  let env ← pyGet config "env" (.map [])
  let stepsRaw ← pyGet config "steps" (.list [])
  let (steps, errs1) ← parseSteps stepsRaw errs
  let strategyRaw ← pyGet config "strategy" (.map [])
  let strategy ← parseStrategy strategyRaw
  let tm ← pyGet config "timeout-minutes" (.int 60)
  let outputs ← pyGet config "outputs" (.map [])
  let runsOn := normalizeRunsOn runsOnRaw
  let errs2 := if !pyTruthy runsOn then
      errs1 ++ ["Job " ++ jobKey ++ " must specify runs-on"]
    else errs1
  let errs3 := if steps.isEmpty then
      errs2 ++ ["Job " ++ jobKey ++ " must have at least one step"]
    else errs2
  pure (.map [("name", name), ("runs_on", runsOn),
    ("needs", normalizeList needsRaw), ("condition", cond),
    ("container", container), ("services", services), ("env", env),
    ("steps", .list steps), ("strategy", strategy),
    ("timeout_minutes", tm), ("outputs", outputs)], errs3)

def parseJobsGo (items : List (String × Yaml)) (errs : List String) :
    Except PyErr (List (String × Yaml) × List String) :=
  match items with
  | [] => pure ([], errs)
  | (k, v) :: rest =>
      if !validateJobKey k then
        parseJobsGo rest (errs ++ ["Invalid job key: " ++ k])
      else do
        let (job, errs') ← parseJob k v errs
        let (tail, errs'') ← parseJobsGo rest errs'
        pure ((k, job) :: tail, errs'')

/-- Set membership for the visited/recursion-stack sets of the cycle
check (hash equality coincides with value equality on these values). -/
def yamlMem (x : Yaml) (l : List Yaml) : Bool :=
  l.any (fun y => yamlBeq y x)

/-- Membership of a `needs` entry in the set of job keys:
`needed_job not in job_keys`.  A list or dict entry is unhashable
(`TypeError`); other non-string scalars are simply not members. -/
def neededInKeys (needed : Yaml) (keys : List String) : Except PyErr Bool :=
  match needed with
  | .str s => pure (keys.contains s)
  | .list _ => .error (.typeError "list")
  | .map _ => .error (.typeError "dict")
  | _ => pure false

def checkNeedsGo (k : String) (keys : List String) (needs : List Yaml)
    (errs : List String) : Except PyErr (List String) :=
  match needs with
  | [] => pure errs
  | n :: rest => do
      let isIn ← neededInKeys n keys
      let errs := if !isIn then
          errs ++ ["Job " ++ k ++ " depends on non-existent job"]
        else errs
      checkNeedsGo k keys rest errs

def validateDepsGo (keys : List String) (jobs : List (String × Yaml))
    (errs : List String) : Except PyErr (List String) :=
  match jobs with
  | [] => pure errs
  | (k, job) :: rest => do
      let needsV ← pyGet job "needs" (.list [])
      let needs ← pyIter needsV
      let errs' ← checkNeedsGo k keys needs errs
      validateDepsGo keys rest errs'

/-- `jobs.get(job_key, {}).get('needs', [])` of the DFS: the needs list
of a job key, empty for unknown or non-string nodes (parsed `needs`
lists are always lists by construction of `_parse_job`). -/
def dfsNeeds (jobs : List (String × Yaml)) (node : Yaml) : List Yaml :=
  match node with
  | .str k =>
      match yamlLookup jobs k with
      | some (.map kvs) =>
          match (yamlLookup kvs "needs").getD (.list []) with
          | .list xs => xs
          | _ => []
      | _ => []
  | _ => []

/-- The coloured-DFS loop of `_check_circular_dependencies`: process
the pending sibling deps of the current node, descending into
unvisited ones and flagging a back-edge into the recursion stack.  The
fuel decreases on both descent and sibling steps; `checkCircular`
instantiates it with a quadratic over-approximation of the number of
steps a DFS over the job graph can take. -/
def cycleFold : Nat → List (String × Yaml) → List Yaml → List Yaml → List Yaml →
    Bool × List Yaml
  | 0, _, _, visited, _ => (false, visited)
  | _ + 1, _, [], visited, _ => (false, visited)
  | f + 1, jobs, dep :: rest, visited, recStack =>
      if !yamlMem dep visited then
        match cycleFold f jobs (dfsNeeds jobs dep) (visited ++ [dep])
            (recStack ++ [dep]) with
        | (true, v) => (true, v)
        | (false, v) => cycleFold f jobs rest v recStack
      else if yamlMem dep recStack then (true, visited)
      else cycleFold f jobs rest visited recStack

/-- `has_cycle(job_key)` for a start node with the given visited set. -/
def hasCycle (fuel : Nat) (jobs : List (String × Yaml)) (node : Yaml)
    (visited : List Yaml) : Bool × List Yaml :=
  cycleFold fuel jobs (dfsNeeds jobs node) (visited ++ [node]) [node]

def dfsFuel (jobs : List (String × Yaml)) : Nat :=
  let total := jobs.length + (jobs.map (fun kv => (dfsNeeds jobs (.str kv.1)).length)).sum
  (total + 1) * (total + 1) + 1

def checkCircularGo (fuel : Nat) (jobs : List (String × Yaml)) :
    List (String × Yaml) → List Yaml → Bool
  | [], _ => false
  | (k, _) :: rest, visited =>
      if !yamlMem (.str k) visited then
        match hasCycle fuel jobs (.str k) visited with
        | (true, _) => true
        | (false, v) => checkCircularGo fuel jobs rest v
      else checkCircularGo fuel jobs rest visited

/-- `PipelineParser._check_circular_dependencies`: true when the DFS
finds a back-edge from any root. -/
def checkCircular (jobs : List (String × Yaml)) : Bool :=
  checkCircularGo (dfsFuel jobs) jobs jobs []

/-- `PipelineParser._validate_job_dependencies`: unknown `needs`
targets, then the single circular-dependency error. -/
def validateJobDeps (jobs : List (String × Yaml)) (errs : List String) :
    Except PyErr (List String) := do
  let keys := jobs.map (fun kv => kv.1)
  let errs' ← validateDepsGo keys jobs errs
  pure (if checkCircular jobs then
      errs' ++ ["Circular dependency detected in job graph"]
    else errs')

/-- `PipelineParser._parse_jobs`.  A falsy `jobs` value returns early,
skipping dependency validation. -/
def parseJobs (jobsConfig : Yaml) (errs : List String) :
    Except PyErr (Yaml × List String) := do
  if !pyTruthy jobsConfig then
    return (.map [], errs)
  let items ← pyItems jobsConfig
  let (jobs, errs1) ← parseJobsGo items errs
  let errs2 ← validateJobDeps jobs errs1
  pure (.map jobs, errs2)

/-- `PipelineParser._parse_config`: the top-level dict literal, values
computed in source order, then the at-least-one-job validation. -/
def parseConfig (raw : List (String × Yaml)) (errs : List String) :
    Except PyErr (Yaml × List String) := do
  let name := (yamlLookup raw "name").getD (.str "Unnamed Pipeline")
  let (onV, errs1) ← parseTriggers ((yamlLookup raw "on").getD (.map [])) errs
  let env := (yamlLookup raw "env").getD (.map [])
  let dfl := (yamlLookup raw "defaults").getD (.map [])
  let conc ← parseConcurrency ((yamlLookup raw "concurrency").getD (.map []))
  let (jobsV, errs2) ← parseJobs ((yamlLookup raw "jobs").getD (.map [])) errs1
  let errs3 := if !pyTruthy jobsV then
      errs2 ++ ["Pipeline must have at least one job"]
    else errs2
  pure (.map [("name", name), ("on", onV), ("env", env), ("defaults", dfl),
    ("concurrency", conc), ("jobs", jobsV)], errs3)

/-- `PipelineParser.parse`: a YAML load error or a non-mapping document
is reported in the error list; everything after that is
`_parse_config`, whose Python exceptions surface as `.error`. -/
def pipelineParse (loaded : Except String Yaml) : Except PyErr (Yaml × List String) :=
  match loaded with
  | .error msg => .ok (.map [], ["YAML syntax error: " ++ msg])
  | .ok (.map kvs) => parseConfig kvs []
  | .ok _ => .ok (.map [], ["Pipeline configuration must be a YAML object"])

/-! ## Claim C3: the parser never raises -/

/-- C3.  `parse` is not exception-free: a document whose `on.push`
value is a string (`on: \x7bpush: main\x7d`) reaches
`_parse_push_trigger`, which calls `.get` on the string and raises
`AttributeError` instead of reporting an error in the returned list.
By contrast a well-formed document flows through the error-accumulation
path: the empty mapping returns the normalized config together with the
single accumulated validation error. -/
theorem c3_parse_raises_on_string_trigger :
    pipelineParse (.ok (.map [("on", .map [("push", .str "main")])])) =
      .error (.attributeError "str") ∧
    pipelineParse (.ok (.map [])) =
      .ok (.map [("name", .str "Unnamed Pipeline"), ("on", .map []),
        ("env", .map []), ("defaults", .map []),
        ("concurrency", .map [("group", .str ""), ("cancel_in_progress", .bool false)]),
        ("jobs", .map [])], ["Pipeline must have at least one job"]) := by
  exact ⟨rfl, rfl⟩

/-! ## Claim C6: path wildcard semantics -/

/-- C6.  `_matches_path_pattern` does not give path patterns the
claimed wildcard semantics.  The depth-zero case fails:
`**/*.md` does not match `README.md` — the `fnmatch` branch needs a
literal `/`, and the replacement pipeline of the `**` branch turns
`**` into `.[^/]*` (one character then a slash-free run), which also
needs the `/`.  It does match one level down (`docs/a.md`).  And in the
`fnmatch` branch a single `*` crosses `/` (`*` matches `a/b`), unlike
the ref matcher, whose `*` stays inside one path segment. -/
theorem c6_path_pattern_divergences :
    matchesPathPattern "README.md" "**/*.md" = false ∧
    matchesPathPattern "docs/a.md" "**/*.md" = true ∧
    matchesPathPattern "a/b" "*" = true ∧
    matchesPattern "a/b" "*" = false := by
  refine ⟨by decide, by decide, by decide, by decide⟩

end MuelsyseCI
